import Mathlib

/-!
Verification development for the Fantom Opera GraphQL API data-access core.

The Go sources are embedded shallowly: every external collaborator of a
function under scrutiny (the in-memory cache, the document store, the RPC
client, the SFC contract bindings) is modelled as an environment record
holding the result each external call would produce during the one
invocation under study, and each Go function becomes a pure Lean function
from that environment to an outcome record.  The outcome carries the
returned value or error together with the observable effects the claims
talk about: whether the RPC client was consulted, what was written to the
cache, whether a cache put failed, which document-store appends were
attempted.  Go `error` values are an inductive `Err`; Go `*big.Int`
arithmetic is exact `Int` arithmetic, with `Int.fdiv` standing for
`big.Int.Div` (Euclidean division, floor for the positive divisors used
here) and `bigUint64` standing for `big.Int.Uint64` (low 64 bits of the
absolute value).  Nil-able Go pointers become `Option`.
-/

/-- Equality of `Except` results is decidable when it is on both sides. -/
instance exceptDecEq {e : Type} {a : Type} [DecidableEq e] [DecidableEq a] :
    DecidableEq (Except e a) := fun x y =>
  match x, y with
  | .ok u, .ok v =>
    if h : u = v then .isTrue (by rw [h]) else .isFalse (by intro hc; cases hc; exact h rfl)
  | .error u, .error v =>
    if h : u = v then .isTrue (by rw [h]) else .isFalse (by intro hc; cases hc; exact h rfl)
  | .ok _, .error _ => .isFalse (by intro hc; cases hc)
  | .error _, .ok _ => .isFalse (by intro hc; cases hc)

/-- Go error values relevant to the repository: the RPC client sentinel
`eth.ErrNoResult`, the repository-level `ErrTransactionNotFound`, and
arbitrary other transport or storage errors carried by a code. -/
inductive Err where
  | noResult
  | transactionNotFound
  | transport (code : Nat)
  | cacheFail (code : Nat)
  deriving DecidableEq, Repr

/-- `types.Transaction`, restricted to the fields the verified functions
touch: the hash, the nil-able containing-block hash (nil while pending) and
the nil-able deployed-contract address. -/
structure Transaction where
  hash : Nat
  blockHash : Option Nat
  contractAddress : Option Nat
  deriving DecidableEq, Repr

/-- External-call results visible to one `proxy.Transaction` invocation:
what `cache.PullTransaction` returns, what `rpc.Transaction` returns, and
whether `cache.PushTransaction` would fail if attempted. -/
structure TxEnv where
  cached : Option Transaction
  rpcTransaction : Except Err Transaction
  pushError : Option Err
  deriving DecidableEq, Repr

/-- Outcome of one `proxy.Transaction` invocation: the returned value or
error, whether the RPC client was consulted, the transaction pushed to the
cache (if any push was attempted), and whether an attempted push failed. -/
structure TxOutcome where
  result : Except Err Transaction
  rpcCalled : Bool
  cacheWrite : Option Transaction
  cachePutFailed : Bool
  deriving DecidableEq, Repr

/-- Shallow embedding of `proxy.Transaction` (repository facade): probe the
cache first and return a hit at once; on a miss call the RPC client, map
`eth.ErrNoResult` to `ErrTransactionNotFound` and pass any other error
through; on success push the transaction to the cache only when its block
hash is non-nil (pending transactions are not cached), logging but
otherwise ignoring a push failure. -/
def proxyTransaction (env : TxEnv) : TxOutcome :=
  match env.cached with
  | some trx => { result := .ok trx, rpcCalled := false, cacheWrite := none, cachePutFailed := false }
  | none =>
    match env.rpcTransaction with
    | .error e =>
      if e = Err.noResult then
        { result := .error .transactionNotFound, rpcCalled := true, cacheWrite := none, cachePutFailed := false }
      else
        { result := .error e, rpcCalled := true, cacheWrite := none, cachePutFailed := false }
    | .ok trx =>
      match trx.blockHash with
      | some _ =>
        { result := .ok trx, rpcCalled := true, cacheWrite := some trx,
          cachePutFailed := env.pushError.isSome }
      | none =>
        { result := .ok trx, rpcCalled := true, cacheWrite := none, cachePutFailed := false }

/-- `types.Block`, restricted to its number; `proxy.AddTransaction` only
passes the block through to the document store. -/
structure Block where
  number : Nat
  deriving DecidableEq, Repr

/-- External-call results visible to one `proxy.AddTransaction` invocation:
the errors (if any) of `db.AddTransaction` and `db.AddContract`. -/
structure AddTxEnv where
  dbAddTransaction : Option Err
  dbAddContract : Option Err
  deriving DecidableEq, Repr

/-- Outcome of one `proxy.AddTransaction` invocation: the returned error (if
any) and which document-store appends were attempted. -/
structure AddTxOutcome where
  result : Option Err
  txAppendAttempted : Bool
  contractAppendAttempted : Bool
  deriving DecidableEq, Repr

/-- Shallow embedding of `proxy.AddTransaction`: append the transaction to
the document store, returning its error on failure; then, only when the
transaction carries a deployed-contract address, append the contract record
too, returning its error on failure. -/
def proxyAddTransaction (env : AddTxEnv) (block : Block) (trx : Transaction) : AddTxOutcome :=
  match env.dbAddTransaction with
  | some e => { result := some e, txAppendAttempted := true, contractAppendAttempted := false }
  | none =>
    match trx.contractAddress with
    | some _ =>
      match env.dbAddContract with
      | some e => { result := some e, txAppendAttempted := true, contractAppendAttempted := true }
      | none => { result := none, txAppendAttempted := true, contractAppendAttempted := true }
    | none => { result := none, txAppendAttempted := true, contractAppendAttempted := false }

/-- `types.Epoch`: the sealed-epoch snapshot, numeric id plus the big-int
accounting figures mapped from the SFC contract snapshot. -/
structure Epoch where
  id : Nat
  endTime : Int
  duration : Int
  epochFee : Int
  totalBaseRewardWeight : Int
  totalTxRewardWeight : Int
  baseRewardPerSecond : Int
  stakeTotalAmount : Int
  delegationsTotalAmount : Int
  totalSupply : Int
  deriving DecidableEq, Repr

/-- The RPC calls an epoch lookup can issue against the SFC contract. -/
inductive SfcCall where
  | currentSealedEpochId
  | epochSnapshot (id : Nat)
  deriving DecidableEq, Repr

/-- External-call results visible to the epoch lookups on the repository
facade: what `cache.PullLastEpoch` returns, what `rpc.CurrentSealedEpoch`
returns, what `rpc.Epoch` returns for each id, and whether
`cache.PushLastEpoch` would fail if attempted. -/
structure EpochProxyEnv where
  cachedEpoch : Option Epoch
  rpcCurrentSealedEpoch : Except Err Nat
  rpcEpoch : Nat → Except Err Epoch
  pushLastEpochError : Option Err

/-- Outcome of one epoch lookup on the repository facade: the returned
value or error, whether the cache was probed, the RPC calls issued in
order, the epoch written to the cache (if a write was attempted), and
whether an attempted cache write failed. -/
structure EpochOutcome where
  result : Except Err Epoch
  cacheRead : Bool
  rpcCalls : List SfcCall
  cacheWrite : Option Epoch
  cachePutFailed : Bool
  deriving DecidableEq, Repr

/-- Shallow embedding of `proxy.Epoch` (repository facade): delegate the
lookup straight to the RPC client; the cache is neither read nor written. -/
def proxyEpoch (env : EpochProxyEnv) (id : Nat) : EpochOutcome :=
  { result := env.rpcEpoch id, cacheRead := false, rpcCalls := [.epochSnapshot id],
    cacheWrite := none, cachePutFailed := false }

/-- Shallow embedding of `proxy.CurrentSealedEpoch`: probe the cache and
return a hit at once; on a miss fetch the sealed-epoch id, then the epoch
data, both via RPC, propagating either error; on success push the epoch to
the cache, logging but otherwise ignoring a push failure. -/
def proxyCurrentSealedEpoch (env : EpochProxyEnv) : EpochOutcome :=
  match env.cachedEpoch with
  | some ep =>
    { result := .ok ep, cacheRead := true, rpcCalls := [], cacheWrite := none, cachePutFailed := false }
  | none =>
    match env.rpcCurrentSealedEpoch with
    | .error e =>
      { result := .error e, cacheRead := true, rpcCalls := [.currentSealedEpochId],
        cacheWrite := none, cachePutFailed := false }
    | .ok id =>
      match env.rpcEpoch id with
      | .error e =>
        { result := .error e, cacheRead := true,
          rpcCalls := [.currentSealedEpochId, .epochSnapshot id],
          cacheWrite := none, cachePutFailed := false }
      | .ok ep =>
        { result := .ok ep, cacheRead := true,
          rpcCalls := [.currentSealedEpochId, .epochSnapshot id],
          cacheWrite := some ep, cachePutFailed := env.pushLastEpochError.isSome }

/-- `big.Int.Uint64` as used on contract-supplied values: the low 64 bits
of the absolute value. -/
def bigUint64 (x : Int) : Nat :=
  x.natAbs % 2 ^ 64

/-- `types.Staker`, restricted to the fields the verified functions touch.
Stake amounts are nil-able big-int pointers; the derived limits are big-int
values; status and the lock window are 64-bit words. -/
structure Staker where
  id : Nat
  stake : Option Int
  delegatedMe : Option Int
  totalStake : Option Int
  totalDelegatedLimit : Int
  delegatedLimit : Int
  status : Nat
  lockedFromEpoch : Nat
  lockedUntil : Nat
  deriving DecidableEq, Repr

/-- Result shape of the SFC `contract.Stakers` call: the nil-able status,
delegated-to-me and self-stake big-int pointers. -/
structure SfcStakerInfo where
  status : Option Int
  delegatedMe : Option Int
  stakeAmount : Option Int
  deriving DecidableEq, Repr

/-- Result shape of the SFC `contract.LockedStakes` call: the nil-able
lock-start epoch and lock-end time. -/
structure LockedStakesInfo where
  fromEpoch : Option Int
  endTime : Option Int
  deriving DecidableEq, Repr

/-- External-call results visible to one staker assembly against the SFC
contract binding: what `contract.Stakers`, `contract.MaxDelegatedRatio`
and `contract.LockedStakes` return for the staker under study. -/
structure SfcContractEnv where
  stakers : Except Err SfcStakerInfo
  maxDelegatedRatio : Except Err Int
  lockedStakes : Except Err LockedStakesInfo
  deriving DecidableEq, Repr

/-- Shallow embedding of `FtmBridge.maxDelegatedLimit`: zero when the
staked amount is nil or the `MaxDelegatedRatio` contract read fails,
otherwise `staked * ratio` divided by the ratio unit 0xF4240 = 1000000
with `big.Int.Div` (floor division, the divisor being positive). -/
def maxDelegatedLimit (staked : Option Int) (env : SfcContractEnv) : Int :=
  match staked with
  | none => 0
  | some s =>
    match env.maxDelegatedRatio with
    | .error _ => 0
    | .ok ratio => Int.fdiv (s * ratio) 1000000

/-- Shallow embedding of `FtmBridge.stakerStatusFromSfc`: fail only when
the `contract.Stakers` read fails; when it succeeds with a present status,
overwrite the stake, delegated-to-me and status fields and, when both the
stake and the delegated amount are present, recompute the total stake and
the two delegation limits.  (The Go code nil-checks `staker.Stake` and
`staker.DelegatedMe`, which it has just assigned from `si.StakeAmount` and
`si.DelegatedMe`.) -/
def stakerStatusFromSfc (env : SfcContractEnv) (staker : Staker) : Except Err Staker :=
  match env.stakers with
  | .error e => .error e
  | .ok si =>
    match si.status with
    | none => .ok staker
    | some st =>
      let s1 : Staker :=
        { staker with
          delegatedMe := si.delegatedMe
          stake := si.stakeAmount
          status := bigUint64 st }
      match si.stakeAmount, si.delegatedMe with
      | some stakeAmount, some dlg =>
        let tdl := maxDelegatedLimit s1.stake env
        .ok { s1 with
          totalStake := some (dlg + stakeAmount)
          totalDelegatedLimit := tdl
          delegatedLimit := tdl - dlg }
      | _, _ => .ok s1

/-- Shallow embedding of `FtmBridge.stakerLockFromSfc`: never fails — a
failed `contract.LockedStakes` read or an absent lock-start epoch or
lock-end time leaves the staker unchanged, and only when both values are
present are the lock fields overwritten with their 64-bit values. -/
def stakerLockFromSfc (env : SfcContractEnv) (staker : Staker) : Except Err Staker :=
  match env.lockedStakes with
  | .error _ => .ok staker
  | .ok lock =>
    match lock.fromEpoch, lock.endTime with
    | some fe, some et =>
      .ok { staker with lockedFromEpoch := bigUint64 fe, lockedUntil := bigUint64 et }
    | _, _ => .ok staker

/-- External-call results visible to one staker lookup on the RPC bridge:
the `sfc_getStaker` and `sfc_getStakerByAddress` base-record results, the
`NewSfcContract` instantiation error (if any) and the SFC contract reads. -/
structure FtmEnv where
  getStakerResult : Except Err Staker
  getStakerByAddressResult : Except Err Staker
  newContractError : Option Err
  sfc : SfcContractEnv
  deriving DecidableEq, Repr

/-- The status-update step of `FtmBridge.extendStaker`: the Go code calls
`stakerStatusFromSfc`, which mutates the staker in place only on success,
and merely logs its error — so a failing step leaves the staker as it was. -/
def statusStep (env : SfcContractEnv) (staker : Staker) : Staker :=
  match stakerStatusFromSfc env staker with
  | .ok s => s
  | .error _ => staker

/-- The lock-update step of `FtmBridge.extendStaker`: the Go code calls
`stakerLockFromSfc`, which mutates the staker in place only on success,
and merely logs its error — so a failing step leaves the staker as it was. -/
def lockStep (env : SfcContractEnv) (staker : Staker) : Staker :=
  match stakerLockFromSfc env staker with
  | .ok s => s
  | .error _ => staker

/-- Shallow embedding of `FtmBridge.extendStaker`: fail when the contract
binding cannot be instantiated; otherwise run the status update and then
the lock update, each failure being logged only — the partially updated
staker is still returned with a nil error. -/
def extendStaker (env : FtmEnv) (staker : Staker) : Except Err Staker :=
  match env.newContractError with
  | some e => .error e
  | none => .ok (lockStep env.sfc (statusStep env.sfc staker))

/-- Shallow embedding of `FtmBridge.Staker` (lookup by numeric id): the
`sfc_getStaker` base fetch is fatal on failure; on success the record is
extended via the SFC contract binding. -/
def ftmStaker (env : FtmEnv) : Except Err Staker :=
  match env.getStakerResult with
  | .error e => .error e
  | .ok st => extendStaker env st

/-- Shallow embedding of `FtmBridge.StakerByAddress`: the
`sfc_getStakerByAddress` base fetch is fatal on failure; on success the
record is extended via the SFC contract binding. -/
def ftmStakerByAddress (env : FtmEnv) : Except Err Staker :=
  match env.getStakerByAddressResult with
  | .error e => .error e
  | .ok st => extendStaker env st

/-- `types.TransactionHashList`, reduced to its list of hashes; the
resolvers treat it as opaque. -/
structure TransactionHashList where
  hashes : List Nat
  deriving DecidableEq, Repr

/-- `accMaxTransactionsPerRequest`: maximal number of transactions an
end-client can request in one account query. -/
def accMaxTransactionsPerRequest : Int := 50

/-- Modelled from the spec: the helper `listLimitCount` called by
`Account.TxList` is not among the provided source files.  Per the
pagination contract, each query clamps the requested count to the fixed
per-collection maximum while the sign of the count controls the loading
direction, so the clamp bounds the magnitude and preserves the sign. -/
def listLimitCount (count : Int) (limit : Int) : Int :=
  if limit < count then limit
  else if count < -limit then -limit
  else count

/-- External-call results visible to one `Account.TxList` invocation: the
repository `AccountTransactions` query as a function of the cursor and the
(already clamped) count. -/
structure TxListEnv where
  accountTransactions : Option String → Int → Except Err TransactionHashList

/-- Outcome of one `Account.TxList` invocation: the returned list or error
and the count actually passed to the repository query. -/
structure TxListOutcome where
  result : Except Err TransactionHashList
  usedCount : Int
  deriving DecidableEq, Repr

/-- Shallow embedding of `Account.TxList` (GraphQL resolver): clamp the
requested count with `listLimitCount` against
`accMaxTransactionsPerRequest`, then query the repository with the cursor
and the clamped count. -/
def accountTxList (env : TxListEnv) (cursor : Option String) (count : Int) : TxListOutcome :=
  let c := listLimitCount count accMaxTransactionsPerRequest
  { result := env.accountTransactions cursor c, usedCount := c }

/-- `types.Account`, restricted to the fields `Account.Contract` touches:
the address and the nil-able deploying-transaction hash. -/
structure Account where
  address : Nat
  contractTx : Option Nat
  deriving DecidableEq, Repr

/-- `types.Contract`, reduced to its address; the resolver treats it as
opaque. -/
structure Contract where
  address : Nat
  deriving DecidableEq, Repr

/-- External-call results visible to one `Account.Contract` invocation:
what the repository `Contract` lookup would return for this address. -/
structure AccountEnv where
  contractLookup : Except Err Contract
  deriving DecidableEq, Repr

/-- Outcome of one `Account.Contract` invocation: the nil-able contract or
an error, and whether the repository `Contract` lookup was consulted. -/
structure ContractOutcome where
  result : Except Err (Option Contract)
  repoCalled : Bool
  deriving DecidableEq, Repr

/-- Shallow embedding of `Account.Contract` (GraphQL resolver): when the
account has no deploying-transaction reference, return a nil contract and
a nil error without consulting the repository; otherwise look the contract
up in the repository, propagating its error. -/
def accountContract (env : AccountEnv) (acc : Account) : ContractOutcome :=
  match acc.contractTx with
  | none => { result := .ok none, repoCalled := false }
  | some _ =>
    match env.contractLookup with
    | .error e => { result := .error e, repoCalled := true }
    | .ok con => { result := .ok (some con), repoCalled := true }

/-- Sample pending transaction (nil block hash) for concrete witnesses. -/
def trxPending : Transaction :=
  { hash := 1, blockHash := none, contractAddress := none }

/-- Sample confirmed transaction (non-nil block hash) for concrete witnesses. -/
def trxConfirmed : Transaction :=
  { hash := 2, blockHash := some 7, contractAddress := some 9 }

/-- Sample sealed epoch for concrete witnesses. -/
def epoch0 : Epoch :=
  { id := 5, endTime := 10, duration := 3, epochFee := 0, totalBaseRewardWeight := 0,
    totalTxRewardWeight := 0, baseRewardPerSecond := 0, stakeTotalAmount := 0,
    delegationsTotalAmount := 0, totalSupply := 0 }

/-- Sample freshly unmarshalled base staker record for concrete witnesses. -/
def staker0 : Staker :=
  { id := 4, stake := none, delegatedMe := none, totalStake := none,
    totalDelegatedLimit := 0, delegatedLimit := 0, status := 0,
    lockedFromEpoch := 0, lockedUntil := 0 }

/-- Sample SFC contract environment where every secondary read fails. -/
def sfcAllFail : SfcContractEnv :=
  { stakers := .error (.transport 1), maxDelegatedRatio := .error (.transport 2),
    lockedStakes := .error (.transport 3) }

/-- Sample RPC-bridge environment whose base staker fetch fails. -/
def ftmEnvBaseFail : FtmEnv :=
  { getStakerResult := .error (.transport 7), getStakerByAddressResult := .error (.transport 7),
    newContractError := none, sfc := sfcAllFail }

/-- Sample RPC-bridge environment whose base staker fetch succeeds but
whose secondary contract reads all fail. -/
def ftmEnvSecondaryFail : FtmEnv :=
  { getStakerResult := .ok staker0, getStakerByAddressResult := .ok staker0,
    newContractError := none, sfc := sfcAllFail }

/-- The status step leaves the lock-window fields of the staker untouched. -/
lemma statusStep_lock_invariant (env : SfcContractEnv) (st : Staker) :
    (statusStep env st).lockedFromEpoch = st.lockedFromEpoch ∧
    (statusStep env st).lockedUntil = st.lockedUntil := by
  unfold statusStep stakerStatusFromSfc
  cases h : env.stakers with
  | error e => simp [h]
  | ok si =>
    cases hst : si.status with
    | none => simp [h, hst]
    | some stv =>
      cases hS : si.stakeAmount <;> cases hD : si.delegatedMe <;> simp [h, hst, hS, hD]

/-- The lock step always yields a staker and never changes any field other
than the two lock-window fields. -/
lemma lockStep_preserves_nonlock (env : SfcContractEnv) (st : Staker) :
    (lockStep env st).id = st.id ∧
    (lockStep env st).stake = st.stake ∧
    (lockStep env st).delegatedMe = st.delegatedMe ∧
    (lockStep env st).totalStake = st.totalStake ∧
    (lockStep env st).totalDelegatedLimit = st.totalDelegatedLimit ∧
    (lockStep env st).delegatedLimit = st.delegatedLimit ∧
    (lockStep env st).status = st.status := by
  unfold lockStep stakerLockFromSfc
  cases h : env.lockedStakes with
  | error e => simp [h]
  | ok lock => cases hf : lock.fromEpoch <;> cases he : lock.endTime <;> simp [h, hf, he]

/-- A failing `LockedStakes` read leaves the staker unchanged. -/
lemma lockStep_of_error (env : SfcContractEnv) (st : Staker) (e : Err)
    (h : env.lockedStakes = .error e) : lockStep env st = st := by
  simp [lockStep, stakerLockFromSfc, h]

/-- An absent lock-start epoch leaves the staker unchanged. -/
lemma lockStep_of_noFromEpoch (env : SfcContractEnv) (st : Staker)
    (lock : LockedStakesInfo) (h : env.lockedStakes = .ok lock)
    (hf : lock.fromEpoch = none) : lockStep env st = st := by
  cases he : lock.endTime <;> simp [lockStep, stakerLockFromSfc, h, hf, he]

/-- An absent lock-end time leaves the staker unchanged. -/
lemma lockStep_of_noEndTime (env : SfcContractEnv) (st : Staker)
    (lock : LockedStakesInfo) (h : env.lockedStakes = .ok lock)
    (he : lock.endTime = none) : lockStep env st = st := by
  cases hf : lock.fromEpoch <;> simp [lockStep, stakerLockFromSfc, h, hf, he]

/-- With both lock timers present, the lock step overwrites exactly the two
lock-window fields with their 64-bit values. -/
lemma lockStep_of_present (env : SfcContractEnv) (st : Staker)
    (lock : LockedStakesInfo) (fe et : Int) (h : env.lockedStakes = .ok lock)
    (hf : lock.fromEpoch = some fe) (he : lock.endTime = some et) :
    lockStep env st = { st with lockedFromEpoch := bigUint64 fe, lockedUntil := bigUint64 et } := by
  simp [lockStep, stakerLockFromSfc, h, hf, he]

/-- A failing `Stakers` read leaves the staker unchanged by the status step. -/
lemma statusStep_of_error (env : SfcContractEnv) (st : Staker) (e : Err)
    (h : env.stakers = .error e) : statusStep env st = st := by
  simp [statusStep, stakerStatusFromSfc, h]

/-- Claim C1: a transaction lookup returns a cache hit immediately without
an RPC call; on a cache miss with a successful RPC fetch the transaction is
returned and written to the cache exactly when its block hash is non-nil,
so a pending transaction (nil block reference) is never written to the
cache and is fetched from RPC on every request. -/
theorem C1_transaction_cache_policy (env : TxEnv) :
    (∀ t, env.cached = some t →
      (proxyTransaction env).result = .ok t ∧
      (proxyTransaction env).rpcCalled = false ∧
      (proxyTransaction env).cacheWrite = none) ∧
    (∀ trx, env.cached = none → env.rpcTransaction = .ok trx →
      (proxyTransaction env).result = .ok trx ∧
      (proxyTransaction env).rpcCalled = true ∧
      ((proxyTransaction env).cacheWrite = some trx ↔ trx.blockHash ≠ none) ∧
      (trx.blockHash = none → (proxyTransaction env).cacheWrite = none)) := by
  constructor
  · intro t ht
    simp [proxyTransaction, ht]
  · intro trx hc hr
    cases hb : trx.blockHash <;> simp [proxyTransaction, hc, hr, hb]

/-- Concrete run of C1: a pending transaction fetched on a cache miss is
returned but not written to the cache. -/
theorem C1_transaction_cache_policy_witness :
    (proxyTransaction { cached := none, rpcTransaction := .ok trxPending, pushError := none }).result
      = .ok trxPending ∧
    (proxyTransaction { cached := none, rpcTransaction := .ok trxPending, pushError := none }).cacheWrite
      = none := by
  have h := (C1_transaction_cache_policy
    { cached := none, rpcTransaction := .ok trxPending, pushError := none }).2 trxPending rfl rfl
  exact ⟨h.1, h.2.2.2 rfl⟩

/-- Claim C4: on a cache miss, an `eth.ErrNoResult` RPC failure becomes the
typed `ErrTransactionNotFound`, any other RPC error is propagated to the
caller unchanged, and neither case writes anything to the cache. -/
theorem C4_transaction_error_propagation (env : TxEnv) (hmiss : env.cached = none) :
    (env.rpcTransaction = .error .noResult →
      (proxyTransaction env).result = .error .transactionNotFound ∧
      (proxyTransaction env).cacheWrite = none) ∧
    (∀ e, env.rpcTransaction = .error e → e ≠ .noResult →
      (proxyTransaction env).result = .error e ∧
      (proxyTransaction env).cacheWrite = none) := by
  constructor
  · intro hr
    simp [proxyTransaction, hmiss, hr]
  · intro e hr hne
    simp [proxyTransaction, hmiss, hr, hne]

/-- Concrete run of C4: a no-result RPC failure yields the typed not-found
error and no cache write; a transport failure is passed through. -/
theorem C4_transaction_error_propagation_witness :
    (proxyTransaction { cached := none, rpcTransaction := .error .noResult, pushError := none }).result
      = .error .transactionNotFound ∧
    (proxyTransaction { cached := none, rpcTransaction := .error (.transport 3), pushError := none }).result
      = .error (.transport 3) := by
  have h1 := (C4_transaction_error_propagation
    { cached := none, rpcTransaction := .error .noResult, pushError := none } rfl).1 rfl
  have h2 := (C4_transaction_error_propagation
    { cached := none, rpcTransaction := .error (.transport 3), pushError := none } rfl).2
    (.transport 3) rfl (by decide)
  exact ⟨h1.1, h2.1⟩

/-- Claim C7: a cache-put failure is never fatal to a read — whatever the
push error, a transaction lookup that fetched its transaction from RPC
still returns it, and a sealed-epoch lookup that fetched its epoch from
RPC still returns it. -/
theorem C7_cache_put_failure_nonfatal (tenv : TxEnv) (eenv : EpochProxyEnv) :
    (∀ trx pe, tenv.cached = none → tenv.rpcTransaction = .ok trx →
      (proxyTransaction { tenv with pushError := pe }).result = .ok trx) ∧
    (∀ id ep pe, eenv.cachedEpoch = none → eenv.rpcCurrentSealedEpoch = .ok id →
      eenv.rpcEpoch id = .ok ep →
      (proxyCurrentSealedEpoch { eenv with pushLastEpochError := pe }).result = .ok ep) := by
  constructor
  · intro trx pe hc hr
    cases hb : trx.blockHash <;> simp [proxyTransaction, hc, hr, hb]
  · intro id ep pe hc hid hep
    simp [proxyCurrentSealedEpoch, hc, hid, hep]

/-- Concrete run of C7: with a failing cache put, both the fetched
confirmed transaction and the fetched sealed epoch are still returned. -/
theorem C7_cache_put_failure_nonfatal_witness :
    (proxyTransaction
        { cached := none, rpcTransaction := Except.ok trxConfirmed,
          pushError := some (.cacheFail 1) }).result = .ok trxConfirmed ∧
    (proxyCurrentSealedEpoch
        { cachedEpoch := none, rpcCurrentSealedEpoch := Except.ok 5,
          rpcEpoch := fun _ => Except.ok epoch0,
          pushLastEpochError := some (.cacheFail 2) }).result = .ok epoch0 := by
  have h := C7_cache_put_failure_nonfatal
    { cached := none, rpcTransaction := Except.ok trxConfirmed, pushError := some (.cacheFail 1) }
    { cachedEpoch := none, rpcCurrentSealedEpoch := Except.ok 5,
      rpcEpoch := fun _ => Except.ok epoch0, pushLastEpochError := some (.cacheFail 2) }
  exact ⟨h.1 trxConfirmed (some (.cacheFail 1)) rfl rfl,
    h.2 5 epoch0 (some (.cacheFail 2)) rfl rfl rfl⟩

/-- Claim C5: `CurrentSealedEpoch` returns a cache hit with no RPC call; on
a miss it fetches the sealed-epoch id and then the epoch via RPC, writes
the epoch to the cache and returns it; `Epoch(id)` always goes live to the
RPC client and neither reads nor writes the cache. -/
theorem C5_epoch_cache_policy (env : EpochProxyEnv) :
    (∀ ep, env.cachedEpoch = some ep →
      (proxyCurrentSealedEpoch env).result = .ok ep ∧
      (proxyCurrentSealedEpoch env).rpcCalls = []) ∧
    (∀ id ep, env.cachedEpoch = none → env.rpcCurrentSealedEpoch = .ok id →
      env.rpcEpoch id = .ok ep →
      (proxyCurrentSealedEpoch env).result = .ok ep ∧
      (proxyCurrentSealedEpoch env).rpcCalls = [.currentSealedEpochId, .epochSnapshot id] ∧
      (proxyCurrentSealedEpoch env).cacheWrite = some ep) ∧
    (∀ id, (proxyEpoch env id).result = env.rpcEpoch id ∧
      (proxyEpoch env id).cacheRead = false ∧
      (proxyEpoch env id).cacheWrite = none) := by
  refine ⟨?_, ?_, ?_⟩
  · intro ep hc
    simp [proxyCurrentSealedEpoch, hc]
  · intro id ep hc hid hep
    simp [proxyCurrentSealedEpoch, hc, hid, hep]
  · intro id
    exact ⟨rfl, rfl, rfl⟩

/-- Concrete run of C5: a cached sealed epoch is served with no RPC call,
and a by-id epoch lookup on the same environment touches no cache. -/
theorem C5_epoch_cache_policy_witness :
    (proxyCurrentSealedEpoch
        { cachedEpoch := some epoch0, rpcCurrentSealedEpoch := Except.ok 5,
          rpcEpoch := fun _ => Except.error (.transport 9),
          pushLastEpochError := none }).result = .ok epoch0 ∧
    (proxyCurrentSealedEpoch
        { cachedEpoch := some epoch0, rpcCurrentSealedEpoch := Except.ok 5,
          rpcEpoch := fun _ => Except.error (.transport 9),
          pushLastEpochError := none }).rpcCalls = [] ∧
    (proxyEpoch
        { cachedEpoch := some epoch0, rpcCurrentSealedEpoch := Except.ok 5,
          rpcEpoch := fun _ => Except.error (.transport 9),
          pushLastEpochError := none } 2).cacheWrite = none := by
  have h := C5_epoch_cache_policy
    { cachedEpoch := some epoch0, rpcCurrentSealedEpoch := Except.ok 5,
      rpcEpoch := fun _ => Except.error (.transport 9), pushLastEpochError := none }
  exact ⟨(h.1 epoch0 rfl).1, (h.1 epoch0 rfl).2, (h.2.2 2).2.2⟩

/-- Claim C8: `AddTransaction` always attempts the transaction append; a
contract record is additionally appended exactly when the transaction
carries a deployed-contract address; a transaction-append failure is
returned and suppresses the contract append; a contract-append failure is
returned to the caller; otherwise the call succeeds. -/
theorem C8_add_transaction_persistence (env : AddTxEnv) (block : Block) (trx : Transaction) :
    (proxyAddTransaction env block trx).txAppendAttempted = true ∧
    (∀ e, env.dbAddTransaction = some e →
      (proxyAddTransaction env block trx).result = some e ∧
      (proxyAddTransaction env block trx).contractAppendAttempted = false) ∧
    (env.dbAddTransaction = none →
      (proxyAddTransaction env block trx).contractAppendAttempted = trx.contractAddress.isSome ∧
      (∀ e, trx.contractAddress.isSome = true → env.dbAddContract = some e →
        (proxyAddTransaction env block trx).result = some e) ∧
      (trx.contractAddress = none → (proxyAddTransaction env block trx).result = none) ∧
      (trx.contractAddress.isSome = true → env.dbAddContract = none →
        (proxyAddTransaction env block trx).result = none)) := by
  refine ⟨?_, ?_, ?_⟩
  · cases ht : env.dbAddTransaction <;>
      cases hc : trx.contractAddress <;>
      cases hd : env.dbAddContract <;>
      simp [proxyAddTransaction, ht, hc, hd]
  · intro e ht
    simp [proxyAddTransaction, ht]
  · intro ht
    refine ⟨?_, ?_, ?_, ?_⟩
    · cases hc : trx.contractAddress <;>
        cases hd : env.dbAddContract <;>
        simp [proxyAddTransaction, ht, hc, hd]
    · intro e hcs hd
      cases hc : trx.contractAddress with
      | none => rw [hc] at hcs; simp at hcs
      | some a => simp [proxyAddTransaction, ht, hc, hd]
    · intro hc
      simp [proxyAddTransaction, ht, hc]
    · intro hcs hd
      cases hc : trx.contractAddress with
      | none => rw [hc] at hcs; simp at hcs
      | some a => simp [proxyAddTransaction, ht, hc, hd]

/-- Concrete run of C8: a failing transaction append returns its error and
suppresses the contract append even for a deploying transaction. -/
theorem C8_add_transaction_persistence_witness :
    (proxyAddTransaction { dbAddTransaction := some (.transport 4), dbAddContract := none }
      { number := 3 } trxConfirmed).result = some (.transport 4) ∧
    (proxyAddTransaction { dbAddTransaction := some (.transport 4), dbAddContract := none }
      { number := 3 } trxConfirmed).contractAppendAttempted = false := by
  exact (C8_add_transaction_persistence
    { dbAddTransaction := some (.transport 4), dbAddContract := none }
    { number := 3 } trxConfirmed).2.1 (.transport 4) rfl

/-- Claim C9: for any cursor and any signed count, `Account.TxList` queries
the repository with the clamped count, whose magnitude never exceeds the
per-collection maximum of 50 account transactions, in either direction. -/
theorem C9_txlist_count_clamped (env : TxListEnv) (cursor : Option String) (count : Int) :
    (accountTxList env cursor count).usedCount
      = listLimitCount count accMaxTransactionsPerRequest ∧
    (accountTxList env cursor count).result
      = env.accountTransactions cursor (listLimitCount count accMaxTransactionsPerRequest) ∧
    -50 ≤ (accountTxList env cursor count).usedCount ∧
    (accountTxList env cursor count).usedCount ≤ 50 := by
  have hbound : -50 ≤ listLimitCount count accMaxTransactionsPerRequest ∧
      listLimitCount count accMaxTransactionsPerRequest ≤ 50 := by
    unfold listLimitCount accMaxTransactionsPerRequest
    split_ifs <;> omega
  exact ⟨rfl, rfl, hbound.1, hbound.2⟩

/-- Claim C10: resolving the contract detail of an account with no
deploying-transaction reference yields a nil contract and nil error with
no repository lookup; the repository is consulted exactly when the
reference is present. -/
theorem C10_account_contract_guard (env : AccountEnv) (acc : Account) :
    (acc.contractTx = none →
      accountContract env acc = { result := .ok none, repoCalled := false }) ∧
    (accountContract env acc).repoCalled = acc.contractTx.isSome := by
  constructor
  · intro h
    simp [accountContract, h]
  · cases h : acc.contractTx with
    | none => simp [accountContract, h]
    | some t => cases hc : env.contractLookup <;> simp [accountContract, h, hc]

/-- Concrete run of C10: a plain account resolves to a nil contract without
consulting the repository, even when the repository lookup would fail. -/
theorem C10_account_contract_guard_witness :
    accountContract { contractLookup := .error (.transport 8) }
      { address := 6, contractTx := none }
      = { result := .ok none, repoCalled := false } := by
  exact (C10_account_contract_guard { contractLookup := .error (.transport 8) }
    { address := 6, contractTx := none }).1 rfl

/-- Claim C2: when the base SFC record carries a present status flag and
both a self-stake S and a delegated-to-me D, and the contract supplies a
ratio R, the assembled staker has total-stake S + D, total-delegated-limit
floor(S * R / 1000000) and delegated-limit the exact big-integer difference
of the two, returned as-is even when negative. -/
theorem C2_staker_delegation_arithmetic (env : SfcContractEnv) (staker : Staker)
    (si : SfcStakerInfo) (stv S D R : Int)
    (hsi : env.stakers = .ok si) (hst : si.status = some stv)
    (hS : si.stakeAmount = some S) (hD : si.delegatedMe = some D)
    (hR : env.maxDelegatedRatio = .ok R) :
    ∃ s, stakerStatusFromSfc env staker = .ok s ∧
      s.totalStake = some (S + D) ∧
      s.totalDelegatedLimit = Int.fdiv (S * R) 1000000 ∧
      s.delegatedLimit = Int.fdiv (S * R) 1000000 - D := by
  refine ⟨{ staker with
      delegatedMe := some D, stake := some S, status := bigUint64 stv,
      totalStake := some (D + S),
      totalDelegatedLimit := Int.fdiv (S * R) 1000000,
      delegatedLimit := Int.fdiv (S * R) 1000000 - D }, ?_, ?_, ?_, ?_⟩
  · simp [stakerStatusFromSfc, hsi, hst, hS, hD, maxDelegatedLimit, hR]
  · simp [Int.add_comm]
  · rfl
  · rfl

/-- Concrete run of C2: self-stake 1, delegated 5, ratio 1000000 gives
total-stake 6, max limit 1 and the negative remaining limit -4, returned
as-is. -/
theorem C2_staker_delegation_arithmetic_witness :
    ∃ s, stakerStatusFromSfc
        { stakers := Except.ok { status := some 1, delegatedMe := some 5, stakeAmount := some 1 },
          maxDelegatedRatio := Except.ok 1000000,
          lockedStakes := Except.error (.transport 0) } staker0 = .ok s ∧
      s.totalStake = some 6 ∧ s.totalDelegatedLimit = 1 ∧ s.delegatedLimit = -4 := by
  obtain ⟨s, h1, h2, h3, h4⟩ := C2_staker_delegation_arithmetic
    { stakers := Except.ok { status := some 1, delegatedMe := some 5, stakeAmount := some 1 },
      maxDelegatedRatio := Except.ok 1000000,
      lockedStakes := Except.error (.transport 0) } staker0
    { status := some 1, delegatedMe := some 5, stakeAmount := some 1 } 1 1 5 1000000
    rfl rfl rfl rfl rfl
  refine ⟨s, h1, ?_, ?_, ?_⟩
  · rw [h2]; decide
  · rw [h3]; decide
  · rw [h4]; decide

/-- Claim C3: a staker lookup by id or by address fails with the base-fetch
error when the base record fetch fails; when the base fetch succeeds, a
failure of the status/stake read, of the delegation-ratio read, or of the
lock-window read does not abort the lookup — the record is still returned,
with the fields fed by the failing read left at their prior or zero
values. -/
theorem C3_staker_base_fatal_secondary_nonfatal (env : FtmEnv) :
    (∀ e, env.getStakerResult = .error e → ftmStaker env = .error e) ∧
    (∀ e, env.getStakerByAddressResult = .error e → ftmStakerByAddress env = .error e) ∧
    (∀ st, env.getStakerResult = .ok st → ftmStaker env = extendStaker env st) ∧
    (∀ st, env.getStakerByAddressResult = .ok st → ftmStakerByAddress env = extendStaker env st) ∧
    (∀ st, env.newContractError = none →
      (∀ e, env.sfc.stakers = .error e →
        ∃ s, extendStaker env st = .ok s ∧ s.stake = st.stake ∧
          s.delegatedMe = st.delegatedMe ∧ s.status = st.status ∧
          s.totalStake = st.totalStake ∧ s.totalDelegatedLimit = st.totalDelegatedLimit ∧
          s.delegatedLimit = st.delegatedLimit) ∧
      (∀ e si stv S D, env.sfc.maxDelegatedRatio = .error e → env.sfc.stakers = .ok si →
        si.status = some stv → si.stakeAmount = some S → si.delegatedMe = some D →
        ∃ s, extendStaker env st = .ok s ∧ s.totalDelegatedLimit = 0 ∧
          s.delegatedLimit = -D) ∧
      (∀ e, env.sfc.lockedStakes = .error e →
        ∃ s, extendStaker env st = .ok s ∧ s.lockedFromEpoch = st.lockedFromEpoch ∧
          s.lockedUntil = st.lockedUntil)) := by
  refine ⟨?_, ?_, ?_, ?_, ?_⟩
  · intro e h
    simp [ftmStaker, h]
  · intro e h
    simp [ftmStakerByAddress, h]
  · intro st h
    simp [ftmStaker, h]
  · intro st h
    simp [ftmStakerByAddress, h]
  · intro st hnc
    refine ⟨?_, ?_, ?_⟩
    · intro e he
      have hss := statusStep_of_error env.sfc st e he
      obtain ⟨hid, hstk, hdm, hts, htdl, hdl, hstat⟩ := lockStep_preserves_nonlock env.sfc st
      refine ⟨lockStep env.sfc st, by simp [extendStaker, hnc, hss], hstk, hdm, hstat, hts,
        htdl, hdl⟩
    · intro e si stv S D hratio hsi hst hS hD
      have hss : statusStep env.sfc st = { st with
          delegatedMe := some D, stake := some S, status := bigUint64 stv,
          totalStake := some (D + S), totalDelegatedLimit := 0,
          delegatedLimit := 0 - D } := by
        simp [statusStep, stakerStatusFromSfc, hsi, hst, hS, hD, maxDelegatedLimit, hratio]
      obtain ⟨hid, hstk, hdm, hts, htdl, hdl, hstat⟩ :=
        lockStep_preserves_nonlock env.sfc (statusStep env.sfc st)
      refine ⟨lockStep env.sfc (statusStep env.sfc st), by simp [extendStaker, hnc], ?_, ?_⟩
      · rw [htdl, hss]
      · rw [hdl, hss]
        simp
    · intro e he
      have hl := lockStep_of_error env.sfc (statusStep env.sfc st) e he
      have hlock := statusStep_lock_invariant env.sfc st
      exact ⟨statusStep env.sfc st, by simp [extendStaker, hnc, hl], hlock.1, hlock.2⟩

/-- Concrete run of C3: a failing base fetch aborts the lookup with the
same error, while with a successful base fetch a failing status read still
yields a staker whose stake fields keep their prior values. -/
theorem C3_staker_base_fatal_secondary_nonfatal_witness :
    ftmStaker ftmEnvBaseFail = .error (.transport 7) ∧
    ∃ s, extendStaker ftmEnvSecondaryFail staker0 = .ok s ∧ s.stake = staker0.stake := by
  refine ⟨(C3_staker_base_fatal_secondary_nonfatal ftmEnvBaseFail).1 (.transport 7) rfl, ?_⟩
  obtain ⟨s, hs, hstk, _⟩ :=
    ((C3_staker_base_fatal_secondary_nonfatal ftmEnvSecondaryFail).2.2.2.2 staker0 rfl).1
      (.transport 1) rfl
  exact ⟨s, hs, hstk⟩

/-- Claim C6: with a successful base fetch, a failing lock-window call or
an absent lock-start epoch or lock-end time still lets the lookup succeed
with both lock fields at their zero values; the lock fields are set only
when both values are present. -/
theorem C6_staker_lock_window_graceful (env : FtmEnv) (st : Staker)
    (hbase : env.getStakerResult = .ok st) (hnc : env.newContractError = none)
    (hz1 : st.lockedFromEpoch = 0) (hz2 : st.lockedUntil = 0) :
    (∀ e, env.sfc.lockedStakes = .error e →
      ∃ s, ftmStaker env = .ok s ∧ s.lockedFromEpoch = 0 ∧ s.lockedUntil = 0) ∧
    (∀ lock, env.sfc.lockedStakes = .ok lock → lock.fromEpoch = none →
      ∃ s, ftmStaker env = .ok s ∧ s.lockedFromEpoch = 0 ∧ s.lockedUntil = 0) ∧
    (∀ lock, env.sfc.lockedStakes = .ok lock → lock.endTime = none →
      ∃ s, ftmStaker env = .ok s ∧ s.lockedFromEpoch = 0 ∧ s.lockedUntil = 0) ∧
    (∀ lock fe et, env.sfc.lockedStakes = .ok lock → lock.fromEpoch = some fe →
      lock.endTime = some et →
      ∃ s, ftmStaker env = .ok s ∧ s.lockedFromEpoch = bigUint64 fe ∧
        s.lockedUntil = bigUint64 et) := by
  have hstep := statusStep_lock_invariant env.sfc st
  refine ⟨?_, ?_, ?_, ?_⟩
  · intro e he
    have hl := lockStep_of_error env.sfc (statusStep env.sfc st) e he
    exact ⟨statusStep env.sfc st, by simp [ftmStaker, hbase, extendStaker, hnc, hl],
      by rw [hstep.1]; exact hz1, by rw [hstep.2]; exact hz2⟩
  · intro lock he hf
    have hl := lockStep_of_noFromEpoch env.sfc (statusStep env.sfc st) lock he hf
    exact ⟨statusStep env.sfc st, by simp [ftmStaker, hbase, extendStaker, hnc, hl],
      by rw [hstep.1]; exact hz1, by rw [hstep.2]; exact hz2⟩
  · intro lock he het
    have hl := lockStep_of_noEndTime env.sfc (statusStep env.sfc st) lock he het
    exact ⟨statusStep env.sfc st, by simp [ftmStaker, hbase, extendStaker, hnc, hl],
      by rw [hstep.1]; exact hz1, by rw [hstep.2]; exact hz2⟩
  · intro lock fe et he hf het
    have hl := lockStep_of_present env.sfc (statusStep env.sfc st) lock fe et he hf het
    exact ⟨{ statusStep env.sfc st with
        lockedFromEpoch := bigUint64 fe, lockedUntil := bigUint64 et },
      by simp [ftmStaker, hbase, extendStaker, hnc, hl], rfl, rfl⟩

/-- Concrete run of C6: a failing lock-window call leaves a successful
lookup with both lock fields zero. -/
theorem C6_staker_lock_window_graceful_witness :
    ∃ s, ftmStaker ftmEnvSecondaryFail = .ok s ∧
      s.lockedFromEpoch = 0 ∧ s.lockedUntil = 0 := by
  exact (C6_staker_lock_window_graceful ftmEnvSecondaryFail staker0 rfl rfl rfl rfl).1
    (.transport 3) rfl
